import Mathlib

/-!
# Verification of the Werewolf leaderboard replay engine

Shallow embedding of the timeline-reconstruction and playback core of
`src/leaderboard_ui/js/leaderboard.js`: the `parseEvents` timeline builder,
the suspicion heuristic applied inside `updateReplayView`, and the cursor
state machine (`stepReplay`, `toggleAutoPlay`, `autoPlayLoop`).

JavaScript semantics are modelled explicitly:
- optional / possibly-`undefined` fields become `Option`;
- `x || d` on strings (empty string is falsy) becomes `jsOr`;
- `x?.toUpperCase()` interpolated into a template (rendering the literal
  text `undefined` when absent) becomes `jsUpperOpt`;
- JS objects used as string-keyed score maps become association lists with
  insertion-order-preserving update (`setScore`) and `(m[k] || 0)` reads
  (`getScore`);
- numbers here are naturals: scores only ever take values
  `min 100 (s + 15)` starting from 0.
-/

namespace Werewolf

/-- JS `a || d` for an optional string: `undefined` and `""` are falsy. -/
def jsOr (s : Option String) (d : String) : String :=
  match s with
  | some t => if t = "" then d else t
  | none => d

/-- JS `s.toUpperCase()` as a character-wise map (the case mapping is ASCII;
every string these claims compare case-mapped output on is ASCII at the
positions that matter). -/
def strUpper (s : String) : String :=
  ⟨s.data.map Char.toUpper⟩

/-- JS `s.toLowerCase()` as a character-wise map (ASCII case mapping, see
`strUpper`). -/
def strLower (s : String) : String :=
  ⟨s.data.map Char.toLower⟩

/-- JS `x?.toUpperCase()` interpolated into a template string:
`undefined` renders as the literal text `"undefined"`. -/
def jsUpperOpt (s : Option String) : String :=
  match s with
  | some t => strUpper t
  | none => "undefined"

/-- Whether `pre` is a prefix of the second list. -/
def listPrefixOf : List Char → List Char → Bool
  | [], _ => true
  | _ :: _, [] => false
  | a :: as, b :: bs => a = b && listPrefixOf as bs

/-- Whether `sub` occurs contiguously inside the second list. -/
def listInfixOf (sub : List Char) : List Char → Bool
  | [] => sub.isEmpty
  | b :: bs => listPrefixOf sub (b :: bs) || listInfixOf sub bs

/-- JS `s.includes(sub)` on strings. -/
def includesStr (s sub : String) : Bool :=
  listInfixOf sub.data s.data

/-- The `type` discriminator of a canonical event. -/
inductive EventType where
  | SYSTEM
  | SPEAK
  | ACTION
  | REVEAL
  deriving DecidableEq, Repr

/-- Canonical event produced by `parseEvents`.  Fields not set by a given
push in the source are `none` / `false` / `[]` (absent keys in the JS
object literal). -/
structure Event where
  type : EventType
  actor : Option String := none
  text : String := ""
  meta : String := ""
  decision : Option String := none
  phase : Option String := none
  isElimination : Bool := false
  roles : Option (List (String × String)) := none
  deriving DecidableEq, Repr

/-- One entry of `game.game_log` (schema A), tagged by its `event`
discriminator.  `other` stands for any entry whose `event` tag is none of
`role_assignment` / `night_phase` / `vote_exile`. -/
inductive GameLogEntry where
  | roleAssignment (roles : List (String × String))
  | nightPhase (round : Nat)
  | voteExile (round : Nat) (exiled : String)
  | other
  deriving DecidableEq, Repr

/-- One entry of `game.action_log` (schema B). -/
structure ActionLogEntry where
  player : String
  action : String
  decision : Option String := none
  reasoning : Option String := none
  round : Nat
  phase : Option String := none
  deriving DecidableEq, Repr

/-- The slice of `rawData.results[0]` that `parseEvents` reads.
`game_log` is `Option` because the source dereferences it unguardedly
(`game.game_log.find(...)`) yet tests it for truthiness later
(`events.length <= 1 && game.game_log`), so absence is representable. -/
structure Game where
  game_log : Option (List GameLogEntry) := none
  action_log : Option (List ActionLogEntry) := none
  winner : Option String := none
  deriving DecidableEq, Repr

/-- The source's `game.game_log.find((l) => l.event === "role_assignment")`, projected
to the `roles` field of the found entry. -/
def findRoleAssignment : List GameLogEntry → Option (List (String × String))
  | [] => none
  | GameLogEntry.roleAssignment rs :: _ => some rs
  | _ :: rest => findRoleAssignment rest

/-- The introductory `SYSTEM` event pushed when a role-assignment entry
exists. -/
def introEvent : Event :=
  { type := EventType.SYSTEM
    text := "ARCHIVO RECUPERADO. PROTOCOLO DE VIGILANCIA ACTIVADO. IDENTIDADES ENCRIPTRADAS."
    meta := "ESTADO: INICIAL" }

/-- The event pushed for one `action_log` entry (schema B):
`SPEAK` for a debate, else `ACTION`; `text` is the reasoning if truthy,
otherwise the synthesized `REGISTRO:` narration. -/
def actionEventOf (log : ActionLogEntry) : Event :=
  { type := if log.action = "debate" then EventType.SPEAK else EventType.ACTION
    actor := some log.player
    text := jsOr log.reasoning
      ("REGISTRO: " ++ log.player ++ " ejecutó " ++ log.action ++ " sobre " ++
        jsOr log.decision "N/A" ++ ".")
    meta := "TICK: R" ++ toString log.round ++ " - " ++ jsUpperOpt log.phase
    decision := log.decision
    phase := log.phase }

/-- The event (if any) pushed for one `game_log` entry on the schema-A
fallback path: `night_phase` markers become `SYSTEM` events, `vote_exile`
markers become eliminating `ACTION` events; other entries push nothing. -/
def fallbackEventOf : GameLogEntry → Option Event
  | GameLogEntry.nightPhase round =>
      some { type := EventType.SYSTEM
             text := "ACTIVIDAD DETECTADA EN SOMBRAS. ELIMINACIÓN EN PROGRESO."
             meta := "TICK: R" ++ toString round ++ " - NOCHE" }
  | GameLogEntry.voteExile round exiled =>
      some { type := EventType.ACTION
             text := "VOTACIÓN FINALIZADA. SUJETO " ++ exiled ++
               " HA SIDO EXPULSADO DEL PERÍMETRO."
             meta := "TICK: R" ++ toString round ++ " - DÍA"
             actor := some exiled
             isElimination := true }
  | _ => none

/-- All events contributed by the schema-A fallback loop over `game_log`. -/
def fallbackEvents (gl : List GameLogEntry) : List Event :=
  gl.filterMap fallbackEventOf

/-- The terminal `REVEAL` event: narration names the winning faction
(uppercased, `"undefined"` when `winner` is absent) and carries the role
mapping captured from the role-assignment entry. -/
def revealEvent (roles : List (String × String)) (winner : Option String) : Event :=
  { type := EventType.REVEAL
    text := "RECONSTRUCCIÓN FINALIZADA. FACCION VICTORIOSA: " ++ jsUpperOpt winner ++
      ". CARGANDO IDENTIDADES REALES..."
    meta := "ESTADO: CIERRE"
    roles := some roles }

/-- The events accumulated before the fallback check: the optional intro
`SYSTEM` event (pushed when a role-assignment entry was found) followed by
one event per `action_log` entry (`game.action_log || []`). -/
def baseEvents (game : Game) (gameLog : List GameLogEntry) : List Event :=
  (match findRoleAssignment gameLog with
   | some _ => [introEvent]
   | none => []) ++
  (match game.action_log with
   | some l => l
   | none => []).map actionEventOf

/-- The full timeline for a record whose `game_log` is present: the base
events, the schema-A fallback events when at most one event was built so
far (`events.length <= 1 && game.game_log`; `game.game_log` is truthy
here, an empty array included), and always the terminal reveal. -/
def timelineEvents (game : Game) (gameLog : List GameLogEntry) : List Event :=
  (if (baseEvents game gameLog).length ≤ 1
   then baseEvents game gameLog ++ fallbackEvents gameLog
   else baseEvents game gameLog) ++
  [revealEvent ((findRoleAssignment gameLog).getD []) game.winner]

/-- The builder `parseEvents(game, participants)`.  Returns `none` exactly when the
source throws: `game.game_log.find(...)` is evaluated unconditionally, so a
record without `game_log` raises a `TypeError`. -/
def parseEvents (game : Game) : Option (List Event) :=
  match game.game_log with
  | none => none
  | some gameLog => some (timelineEvents game gameLog)

example :
    parseEvents
      { game_log := some []
        action_log := some [{ player := "P1", action := "vote",
                              decision := some "P2", round := 1,
                              phase := some "day" }] } =
    some [{ type := EventType.ACTION, actor := some "P1",
            text := "REGISTRO: P1 ejecutó vote sobre P2.",
            meta := "TICK: R1 - DAY", decision := some "P2",
            phase := some "day" },
          { type := EventType.REVEAL,
            text := "RECONSTRUCCIÓN FINALIZADA. FACCION VICTORIOSA: undefined. CARGANDO IDENTIDADES REALES...",
            meta := "ESTADO: CIERRE", roles := some [] }] := by
  decide

/-! ## Suspicion score map

`replayState.suspicionScores` is a JS object used as a string-keyed map.
We model it as an association list: reads are `(m[k] || 0)`, writes update
the existing entry in place or append a fresh key at the end. -/

/-- JS read `(scores[k] || 0)`: a missing key reads as 0 (and a stored 0
is falsy, also reading as 0). -/
def getScore (m : List (String × Nat)) (k : String) : Nat :=
  match m.lookup k with
  | some v => v
  | none => 0

/-- JS write `scores[k] = v`: overwrite the entry for `k` if present,
otherwise append a new entry (JS objects keep insertion order). -/
def setScore (m : List (String × Nat)) (k : String) (v : Nat) : List (String × Nat) :=
  match m with
  | [] => [(k, v)]
  | (k', v') :: rest =>
    if k' = k then (k, v) :: rest else (k', v') :: setScore rest k v

/-- Whether the suspicion heuristic in `updateReplayView` fires for an
event: the actor guard `if (event.actor)` (absent or empty string is
falsy) and then `event.type === "ACTION" ||
event.text.toLowerCase().includes("acus") ||
event.text.toLowerCase().includes("sospech")`. -/
def suspicionTriggers (e : Event) : Bool :=
  match e.actor with
  | none => false
  | some a =>
    a ≠ "" &&
      (e.type = EventType.ACTION ||
        includesStr (strLower e.text) "acus" ||
        includesStr (strLower e.text) "sospech")

/-- The mutation of `replayState.suspicionScores` performed by one call to
`updateReplayView` for the current event:
`scores[actor] = Math.min(100, (scores[actor] || 0) + 15)` when the
heuristic fires, no change otherwise. -/
def updateSuspicion (m : List (String × Nat)) (e : Event) : List (String × Nat) :=
  match e.actor with
  | none => m
  | some a =>
    if suspicionTriggers e then setScore m a (min 100 (getScore m a + 15))
    else m

/-- The replay engine state (`replayState` in the source), restricted to
the fields with algorithmic content (`typingInterval` is pure DOM). -/
structure ReplayState where
  events : List Event
  currentIndex : Nat
  autoPlay : Bool
  suspicionScores : List (String × Nat)
  deriving DecidableEq, Repr

/-- The state effect of `updateReplayView()`: read the event at
`currentIndex` (return unchanged on the `if (!event) return` guard) and
apply the suspicion heuristic for it.  All other work in the source
function is DOM rendering. -/
def updateReplayView (st : ReplayState) : ReplayState :=
  match st.events.get? st.currentIndex with
  | none => st
  | some e => { st with suspicionScores := updateSuspicion st.suspicionScores e }

/-- The source's `stepReplay(delta)`: no-op on an empty event list, otherwise clamp
`currentIndex + delta` into `[0, events.length - 1]` and refresh the view
(which applies the heuristic for the event now under the cursor). -/
def stepReplay (st : ReplayState) (delta : Int) : ReplayState :=
  if st.events.length = 0 then st
  else
    updateReplayView
      { st with
        currentIndex :=
          (max 0 (min ((st.events.length : Int) - 1)
            ((st.currentIndex : Int) + delta))).toNat }

/-- The source's `autoPlayLoop()`: the cooperative auto-advance loop, `fuel` bounding
the number of scheduling iterations.  Each iteration re-checks
`replayState.autoPlay && replayState.currentIndex <
replayState.events.length - 1` before stepping forward once. -/
def autoPlayLoop : Nat → ReplayState → ReplayState
  | 0, st => st
  | fuel + 1, st =>
    if st.autoPlay && decide (st.currentIndex < st.events.length - 1) then
      autoPlayLoop fuel (stepReplay st 1)
    else st

/-- The source's `toggleAutoPlay()`: flip `autoPlay` and, when it became true, run the
auto-advance loop (here with `fuel` scheduling iterations). -/
def toggleAutoPlay (fuel : Nat) (st : ReplayState) : ReplayState :=
  let st' := { st with autoPlay := !st.autoPlay }
  if st'.autoPlay then autoPlayLoop fuel st' else st'

/-- The seeding in `renderIArena`:
`Object.keys(participants).forEach((p) => (suspicionScores[p] = 0))`. -/
def seedScores (participants : List String) : List (String × Nat) :=
  participants.map (fun p => (p, 0))

/-- The replay-engine initialization in `renderIArena`: install the
events, reset the cursor to 0, seed the scores from the participant keys,
and show the first event via `updateReplayView()`. -/
def initReplay (events : List Event) (participants : List String) : ReplayState :=
  updateReplayView
    { events := events
      currentIndex := 0
      autoPlay := false
      suspicionScores := seedScores participants }

/-- Repeated clicks, `n` of them, of the `ia-btn-next` control (`stepReplay(1)`
`n` times). -/
def stepForwardN (st : ReplayState) (n : Nat) : ReplayState :=
  match n with
  | 0 => st
  | n + 1 => stepReplay (stepForwardN st n) 1

/-- The progress projection computed by `updateReplayView`:
`events.length > 1 ? currentIndex / (events.length - 1) * 100 : 100`. -/
def progressPercent (st : ReplayState) : ℚ :=
  if 1 < st.events.length then
    (st.currentIndex : ℚ) / ((st.events.length : ℚ) - 1) * 100
  else 100

/-- All scores in the map are at most 100 (the lower bound 0 holds by the
`Nat` value type). -/
def ScoresBounded (m : List (String × Nat)) : Prop :=
  ∀ p ∈ m, p.2 ≤ 100

instance (m : List (String × Nat)) : Decidable (ScoresBounded m) := by
  unfold ScoresBounded
  infer_instance

theorem lookup_cons (k k₀ : String) (v₀ : Nat) (rest : List (String × Nat)) :
    ((k₀, v₀) :: rest).lookup k = if k = k₀ then some v₀ else rest.lookup k := by
  by_cases h : k = k₀
  · simp [List.lookup, h]
  · simp [List.lookup, h, beq_false_of_ne h]

theorem lookup_setScore_self (m : List (String × Nat)) (k : String) (v : Nat) :
    (setScore m k v).lookup k = some v := by
  induction m with
  | nil => simp [setScore, lookup_cons]
  | cons p rest ih =>
    obtain ⟨k', v'⟩ := p
    by_cases h : k' = k
    · subst h
      simp [setScore, lookup_cons]
    · simp [setScore, h, lookup_cons, Ne.symm h, ih]

theorem lookup_setScore_ne (m : List (String × Nat)) (k k' : String) (v : Nat)
    (h : k' ≠ k) : (setScore m k v).lookup k' = m.lookup k' := by
  induction m with
  | nil => simp [setScore, lookup_cons, h, List.lookup, beq_false_of_ne h]
  | cons p rest ih =>
    obtain ⟨k₀, v₀⟩ := p
    by_cases hk : k₀ = k
    · subst hk
      simp [setScore, lookup_cons, h]
    · simp only [setScore, if_neg hk, lookup_cons]
      by_cases hk' : k' = k₀
      · simp [hk']
      · simp [hk', ih]

theorem getScore_setScore_self (m : List (String × Nat)) (k : String) (v : Nat) :
    getScore (setScore m k v) k = v := by
  simp [getScore, lookup_setScore_self]

theorem getScore_setScore_ne (m : List (String × Nat)) (k k' : String) (v : Nat)
    (h : k' ≠ k) : getScore (setScore m k v) k' = getScore m k' := by
  simp [getScore, lookup_setScore_ne m k k' v h]

theorem scoresBounded_setScore (m : List (String × Nat)) (k : String) (v : Nat)
    (hm : ScoresBounded m) (hv : v ≤ 100) : ScoresBounded (setScore m k v) := by
  induction m with
  | nil =>
    intro p hp
    simp [setScore] at hp
    simp [hp, hv]
  | cons q rest ih =>
    obtain ⟨k₀, v₀⟩ := q
    have hrest : ScoresBounded rest := fun p hp => hm p (List.mem_cons_of_mem _ hp)
    intro p hp
    by_cases hk : k₀ = k
    · subst hk
      simp [setScore] at hp
      rcases hp with hp | hp
      · simp [hp, hv]
      · exact hm p (List.mem_cons_of_mem _ hp)
    · simp only [setScore, if_neg hk, List.mem_cons] at hp
      rcases hp with hp | hp
      · exact hp ▸ hm ⟨k₀, v₀⟩ (List.mem_cons_self _ _)
      · exact ih hrest p hp

theorem lookup_updateSuspicion_frame (m : List (String × Nat)) (e : Event)
    (k : String) (h : ∀ a, e.actor = some a → k ≠ a) :
    (updateSuspicion m e).lookup k = m.lookup k := by
  unfold updateSuspicion
  cases ha : e.actor with
  | none => rfl
  | some a =>
    by_cases ht : suspicionTriggers e
    · simp only [ht, if_true]
      exact lookup_setScore_ne m a k _ (h a ha)
    · simp [ht]

theorem scoresBounded_updateSuspicion (m : List (String × Nat)) (e : Event)
    (hm : ScoresBounded m) : ScoresBounded (updateSuspicion m e) := by
  unfold updateSuspicion
  cases e.actor with
  | none => exact hm
  | some a =>
    by_cases ht : suspicionTriggers e
    · simp only [ht, if_true]
      exact scoresBounded_setScore m a _ hm (Nat.min_le_left _ _)
    · simpa [ht] using hm

theorem getScore_le_of_scoresBounded (m : List (String × Nat)) (k : String)
    (hm : ScoresBounded m) : getScore m k ≤ 100 := by
  induction m with
  | nil => simp [getScore, List.lookup]
  | cons p rest ih =>
    obtain ⟨k₀, v₀⟩ := p
    have hrest : ScoresBounded rest := fun q hq => hm q (List.mem_cons_of_mem _ hq)
    by_cases hk : k = k₀
    · simp only [getScore, lookup_cons, if_pos hk]
      exact hm ⟨k₀, v₀⟩ (List.mem_cons_self _ _)
    · simp only [getScore, lookup_cons, if_neg hk]
      exact ih hrest

theorem getScore_le_updateSuspicion (m : List (String × Nat)) (e : Event)
    (k : String) (hm : ScoresBounded m) :
    getScore m k ≤ getScore (updateSuspicion m e) k := by
  unfold updateSuspicion
  cases ha : e.actor with
  | none => exact Nat.le_refl _
  | some a =>
    by_cases ht : suspicionTriggers e
    · simp only [ht, if_true]
      by_cases hk : k = a
      · subst hk
        rw [getScore_setScore_self]
        have := getScore_le_of_scoresBounded m k hm
        omega
      · rw [getScore_setScore_ne m a k _ hk]
    · simp [ht]

theorem scoresBounded_foldl (m : List (String × Nat)) (evts : List Event)
    (hm : ScoresBounded m) :
    ScoresBounded (List.foldl updateSuspicion m evts) := by
  induction evts generalizing m with
  | nil => exact hm
  | cons e rest ih => exact ih _ (scoresBounded_updateSuspicion m e hm)

theorem getScore_le_foldl (m : List (String × Nat)) (evts : List Event)
    (k : String) (hm : ScoresBounded m) :
    getScore m k ≤ getScore (List.foldl updateSuspicion m evts) k := by
  induction evts generalizing m with
  | nil => exact Nat.le_refl _
  | cons e rest ih =>
    exact Nat.le_trans (getScore_le_updateSuspicion m e k hm)
      (ih _ (scoresBounded_updateSuspicion m e hm))

theorem lookup_seedScores (ps : List String) (p : String) (hp : p ∈ ps) :
    (seedScores ps).lookup p = some 0 := by
  induction ps with
  | nil => cases hp
  | cons q rest ih =>
    rcases List.mem_cons.mp hp with h | h
    · simp [seedScores, lookup_cons, h]
    · by_cases hq : p = q
      · simp [seedScores, lookup_cons, hq]
      · simp [seedScores, lookup_cons, hq]
        simpa [seedScores] using ih h

theorem scoresBounded_seedScores (ps : List String) :
    ScoresBounded (seedScores ps) := by
  intro p hp
  simp only [seedScores, List.mem_map] at hp
  obtain ⟨q, -, rfl⟩ := hp
  exact Nat.zero_le 100

theorem updateReplayView_events (st : ReplayState) :
    (updateReplayView st).events = st.events := by
  unfold updateReplayView
  cases st.events.get? st.currentIndex <;> rfl

theorem updateReplayView_currentIndex (st : ReplayState) :
    (updateReplayView st).currentIndex = st.currentIndex := by
  unfold updateReplayView
  cases st.events.get? st.currentIndex <;> rfl

theorem updateReplayView_autoPlay (st : ReplayState) :
    (updateReplayView st).autoPlay = st.autoPlay := by
  unfold updateReplayView
  cases st.events.get? st.currentIndex <;> rfl

/-- C4: the suspicion update increments the actor's score to
`min 100 (old + 15)` exactly when the event has a (truthy) actor and
either its kind is `ACTION` or its lowercased text contains `"acus"` or
`"sospech"`; every other key, and every event without that condition,
is left unchanged. -/
theorem C4_suspicion_update_rule (m : List (String × Nat)) (e : Event)
    (a : String) (ha : e.actor = some a) (hne : a ≠ "") :
    ((e.type = EventType.ACTION ∨
        includesStr (strLower e.text) "acus" = true ∨
        includesStr (strLower e.text) "sospech" = true) →
      getScore (updateSuspicion m e) a = min 100 (getScore m a + 15) ∧
      ∀ k, k ≠ a → (updateSuspicion m e).lookup k = m.lookup k) ∧
    (¬(e.type = EventType.ACTION ∨
        includesStr (strLower e.text) "acus" = true ∨
        includesStr (strLower e.text) "sospech" = true) →
      updateSuspicion m e = m) ∧
    (∀ (m' : List (String × Nat)) (e' : Event),
      e'.actor = none ∨ e'.actor = some "" → updateSuspicion m' e' = m') := by
  refine ⟨?_, ?_, ?_⟩
  · intro hcond
    have ht : suspicionTriggers e = true := by
      rcases hcond with h | h | h <;> simp [suspicionTriggers, ha, hne, h]
    constructor
    · simp only [updateSuspicion, ha, ht, if_true]
      exact getScore_setScore_self m a _
    · intro k hk
      simp only [updateSuspicion, ha, ht, if_true]
      exact lookup_setScore_ne m a k _ hk
  · intro hcond
    have ht : suspicionTriggers e = false := by
      simp only [suspicionTriggers, ha]
      push_neg at hcond
      obtain ⟨h1, h2, h3⟩ := hcond
      simp [h1, h2, h3]
    simp [updateSuspicion, ha, ht]
  · intro m' e' h
    rcases h with h | h
    · simp [updateSuspicion, h]
    · have ht : suspicionTriggers e' = false := by
        simp [suspicionTriggers, h]
      simp [updateSuspicion, h, ht]

theorem C4_suspicion_update_rule_witness :
    getScore (updateSuspicion [("P1", 95)]
      { type := EventType.ACTION, actor := some "P1", text := "x" }) "P1" = 100 := by
  have h := (C4_suspicion_update_rule [("P1", 95)]
    { type := EventType.ACTION, actor := some "P1", text := "x" } "P1" rfl
    (by decide)).1 (Or.inl rfl)
  rw [h.1]
  decide

/-- C9: a single cursor move changes at most the score entry of the
current event's actor — at the heuristic level and at the `stepReplay`
level: any key that is not the actor of the event under the new cursor
reads exactly as before. -/
theorem C9_frame_effect :
    (∀ (m : List (String × Nat)) (e : Event) (k : String),
        (∀ a, e.actor = some a → k ≠ a) →
        (updateSuspicion m e).lookup k = m.lookup k) ∧
    (∀ (st : ReplayState) (delta : Int) (k : String),
        (∀ e a, (stepReplay st delta).events.get?
            (stepReplay st delta).currentIndex = some e →
          e.actor = some a → k ≠ a) →
        (stepReplay st delta).suspicionScores.lookup k =
          st.suspicionScores.lookup k) := by
  refine ⟨lookup_updateSuspicion_frame, ?_⟩
  intro st delta k h
  unfold stepReplay at *
  by_cases hlen : st.events.length = 0
  · simp only [hlen, if_true] at *
  · simp only [hlen, if_false] at *
    set j := (max 0 (min ((st.events.length : Int) - 1)
      ((st.currentIndex : Int) + delta))).toNat with hj
    rw [updateReplayView_events, updateReplayView_currentIndex] at h
    unfold updateReplayView
    cases hget : st.events.get? j with
    | none => rfl
    | some e =>
      simp only [hget]
      exact lookup_updateSuspicion_frame _ e k (fun a ha => h e a hget ha)

/-- Concrete one-event state used to witness `C9_frame_effect`. -/
def evC9 : Event :=
  { type := EventType.ACTION, actor := some "P1", text := "x" }

/-- Concrete replay state used to witness `C9_frame_effect`. -/
def stC9 : ReplayState :=
  { events := [evC9], currentIndex := 0, autoPlay := false,
    suspicionScores := [("P1", 0), ("P2", 0)] }

theorem C9_frame_effect_witness :
    (stepReplay stC9 1).suspicionScores.lookup "P2" = some 0 := by
  have h := C9_frame_effect.2 stC9 1 "P2" ?_
  · rw [h]
    decide
  · intro e a hget ha
    have hc : (stepReplay stC9 1).events.get? (stepReplay stC9 1).currentIndex =
        some evC9 := by decide
    rw [hc] at hget
    injection hget with he
    subst he
    rw [show evC9.actor = some "P1" from rfl] at ha
    injection ha with ha'
    subst ha'
    decide

/-- C10: when the triggering event's actor is not a key of the score map,
the update reads the missing score as 0 and appends a fresh entry with
value 15, and boundedness of the map is preserved. -/
theorem C10_missing_actor_key (m : List (String × Nat)) (e : Event)
    (a : String) (ha : e.actor = some a) (ht : suspicionTriggers e = true)
    (hmiss : m.lookup a = none) :
    getScore m a = 0 ∧
    (updateSuspicion m e).lookup a = some 15 ∧
    (ScoresBounded m → ScoresBounded (updateSuspicion m e)) := by
  have h0 : getScore m a = 0 := by simp [getScore, hmiss]
  refine ⟨h0, ?_, fun hm => scoresBounded_updateSuspicion m e hm⟩
  simp only [updateSuspicion, ha, ht, if_true, h0]
  simpa using lookup_setScore_self m a 15

theorem C10_missing_actor_key_witness :
    (updateSuspicion [("P1", 0)]
      { type := EventType.ACTION, actor := some "P3",
        text := "VOTACIÓN FINALIZADA. SUJETO P3 HA SIDO EXPULSADO DEL PERÍMETRO.",
        isElimination := true }).lookup "P3" = some 15 :=
  (C10_missing_actor_key [("P1", 0)]
    { type := EventType.ACTION, actor := some "P3",
      text := "VOTACIÓN FINALIZADA. SUJETO P3 HA SIDO EXPULSADO DEL PERÍMETRO.",
      isElimination := true } "P3" rfl (by decide) (by decide)).2.1

/-- C5: scores are seeded to 0 for every participant key, every reachable
score map (seed followed by any sequence of heuristic updates) stays
within `[0, 100]` (the lower bound by the `Nat` value type), a single
update never decreases any score on a bounded map, and scores are
monotonically non-decreasing along a forward-only traversal (extending
the event prefix that has been replayed). -/
theorem C5_scores_invariant :
    (∀ (ps : List String) (p : String), p ∈ ps →
        (seedScores ps).lookup p = some 0) ∧
    (∀ ps : List String, ScoresBounded (seedScores ps)) ∧
    (∀ (m : List (String × Nat)) (e : Event), ScoresBounded m →
        ScoresBounded (updateSuspicion m e) ∧
        ∀ k, getScore m k ≤ getScore (updateSuspicion m e) k) ∧
    (∀ (ps : List String) (evts : List Event),
        ScoresBounded (List.foldl updateSuspicion (seedScores ps) evts)) ∧
    (∀ (ps : List String) (evts extra : List Event) (k : String),
        getScore (List.foldl updateSuspicion (seedScores ps) evts) k ≤
          getScore (List.foldl updateSuspicion (seedScores ps) (evts ++ extra)) k) := by
  refine ⟨lookup_seedScores, scoresBounded_seedScores, ?_, ?_, ?_⟩
  · intro m e hm
    exact ⟨scoresBounded_updateSuspicion m e hm,
      fun k => getScore_le_updateSuspicion m e k hm⟩
  · intro ps evts
    exact scoresBounded_foldl _ evts (scoresBounded_seedScores ps)
  · intro ps evts extra k
    rw [List.foldl_append]
    exact getScore_le_foldl _ extra k
      (scoresBounded_foldl _ evts (scoresBounded_seedScores ps))

/-- Concrete triggering event used to witness `C5_scores_invariant`. -/
def evC5 : Event :=
  { type := EventType.ACTION, actor := some "P1", text := "x" }

theorem C5_scores_invariant_witness :
    (seedScores ["P1", "P2"]).lookup "P2" = some 0 ∧
    getScore (List.foldl updateSuspicion (seedScores ["P1"]) [evC5]) "P1" ≤
      getScore (List.foldl updateSuspicion (seedScores ["P1"]) ([evC5] ++ [evC5])) "P1" :=
  ⟨C5_scores_invariant.1 ["P1", "P2"] "P2" (by decide),
   C5_scores_invariant.2.2.2.2 ["P1"] [evC5] [evC5] "P1"⟩

/-- C6: `progressPercent` is `currentIndex / (events.length - 1) * 100`
when there are at least two events and 100 when there is exactly one; it
is 0 at index 0 (for at least two events), 100 at the last index, and
monotonically non-decreasing in `currentIndex`. -/
theorem C6_progress_percent (st : ReplayState) :
    (st.events.length = 1 → progressPercent st = 100) ∧
    (1 < st.events.length →
      progressPercent st =
        (st.currentIndex : ℚ) / ((st.events.length : ℚ) - 1) * 100) ∧
    (1 < st.events.length → st.currentIndex = 0 → progressPercent st = 0) ∧
    (st.events ≠ [] → st.currentIndex = st.events.length - 1 →
      progressPercent st = 100) ∧
    (∀ i j : Nat, i ≤ j →
      progressPercent { st with currentIndex := i } ≤
        progressPercent { st with currentIndex := j }) := by
  refine ⟨?_, ?_, ?_, ?_, ?_⟩
  · intro h
    simp [progressPercent, h]
  · intro h
    simp [progressPercent, h]
  · intro h h0
    simp [progressPercent, h, h0]
  · intro hne hidx
    rcases Nat.lt_or_ge 1 st.events.length with hlen | hlen
    · have h1 : 1 ≤ st.events.length := le_of_lt hlen
      have hcast : ((st.events.length - 1 : Nat) : ℚ) =
          (st.events.length : ℚ) - 1 := by
        rw [Nat.cast_sub h1, Nat.cast_one]
      have hL : (st.events.length : ℚ) - 1 ≠ 0 := by
        have : (1 : ℚ) < st.events.length := by exact_mod_cast hlen
        linarith
      simp only [progressPercent, hlen, if_true, hidx, hcast]
      rw [div_self hL, one_mul]
    · have hlen1 : st.events.length = 1 := by
        have := List.length_pos.mpr hne
        omega
      simp [progressPercent, hlen1]
  · intro i j hij
    by_cases hlen : 1 < st.events.length
    · have hL : (0 : ℚ) < (st.events.length : ℚ) - 1 := by
        have : (1 : ℚ) < st.events.length := by exact_mod_cast hlen
        linarith
      have hij' : (i : ℚ) ≤ (j : ℚ) := by exact_mod_cast hij
      simp only [progressPercent, hlen, if_true]
      rw [mul_le_mul_right (by norm_num : (0 : ℚ) < 100),
        div_le_div_iff_of_pos_right hL]
      exact hij'
    · simp [progressPercent, hlen]

/-- Concrete three-event state at its last index, used to witness
`C6_progress_percent`. -/
def stC6 : ReplayState :=
  { events := [evC5, evC5, evC5], currentIndex := 2, autoPlay := false,
    suspicionScores := [] }

theorem C6_progress_percent_witness : progressPercent stC6 = 100 :=
  (C6_progress_percent stC6).2.2.2.1 (by decide) rfl

/-- C8: toggling auto-play while the cursor is at the last index only
flips the flag — the cursor does not move and no advance iteration runs —
and in general the auto-advance loop returns its state unchanged as soon
as `autoPlay` is off or the cursor is not strictly below the last index. -/
theorem C8_autoplay_terminal (fuel : Nat) (st : ReplayState)
    (h : st.currentIndex = st.events.length - 1) :
    toggleAutoPlay fuel st = { st with autoPlay := !st.autoPlay } ∧
    (∀ (fuel' : Nat) (st' : ReplayState),
        st'.autoPlay = false ∨ ¬ st'.currentIndex < st'.events.length - 1 →
        autoPlayLoop fuel' st' = st') := by
  have hloop : ∀ (fuel' : Nat) (st' : ReplayState),
      st'.autoPlay = false ∨ ¬ st'.currentIndex < st'.events.length - 1 →
      autoPlayLoop fuel' st' = st' := by
    intro fuel' st' h'
    cases fuel' with
    | zero => rfl
    | succ n =>
      unfold autoPlayLoop
      rcases h' with h' | h'
      · simp [h']
      · simp [h']
  refine ⟨?_, hloop⟩
  cases hap : st.autoPlay with
  | true => simp [toggleAutoPlay, hap]
  | false =>
    simp only [toggleAutoPlay, hap, Bool.not_false, if_true]
    exact hloop fuel _ (Or.inr (by simp [h]))

/-- Concrete two-event state at its last index with auto-play off, used
to witness `C8_autoplay_terminal`. -/
def stC8 : ReplayState :=
  { events := [evC5, evC5], currentIndex := 1, autoPlay := false,
    suspicionScores := [] }

theorem C8_autoplay_terminal_witness :
    toggleAutoPlay 5 stC8 = { stC8 with autoPlay := true } := by
  have h := (C8_autoplay_terminal 5 stC8 (by decide)).1
  simpa using h

theorem listPrefixOf_append (l t : List Char) :
    listPrefixOf l (l ++ t) = true := by
  induction l with
  | nil => rfl
  | cons c cs ih => simp [listPrefixOf, ih]

theorem listInfixOf_of_listPrefixOf (sub s : List Char)
    (h : listPrefixOf sub s = true) : listInfixOf sub s = true := by
  cases s with
  | nil =>
    cases sub with
    | nil => rfl
    | cons c cs => simp [listPrefixOf] at h
  | cons b bs => simp [listInfixOf, h]

theorem listInfixOf_append_left (sub a s : List Char)
    (h : listInfixOf sub s = true) : listInfixOf sub (a ++ s) = true := by
  induction a with
  | nil => exact h
  | cons c cs ih => simp [listInfixOf, ih]

theorem includesStr_append (a b c : String) :
    includesStr (a ++ b ++ c) b = true := by
  show listInfixOf b.data (a ++ b ++ c).data = true
  have hdata : (a ++ b ++ c).data = a.data ++ (b.data ++ c.data) := by
    simp [String.data_append, List.append_assoc]
  rw [hdata]
  exact listInfixOf_append_left _ _ _
    (listInfixOf_of_listPrefixOf _ _ (listPrefixOf_append b.data c.data))

theorem type_ne_reveal_of_mem_baseEvents (game : Game)
    (gl : List GameLogEntry) (e : Event) (he : e ∈ baseEvents game gl) :
    e.type ≠ EventType.REVEAL := by
  unfold baseEvents at he
  rcases List.mem_append.mp he with h | h
  · cases hr : findRoleAssignment gl with
    | none => rw [hr] at h; cases h
    | some rs =>
      rw [hr] at h
      rcases List.mem_singleton.mp h with rfl
      intro hc
      cases hc
  · obtain ⟨l, -, rfl⟩ := List.mem_map.mp h
    unfold actionEventOf
    split <;> intro hc <;> cases hc

theorem type_ne_reveal_of_mem_fallbackEvents (gl : List GameLogEntry)
    (e : Event) (he : e ∈ fallbackEvents gl) :
    e.type ≠ EventType.REVEAL := by
  unfold fallbackEvents at he
  obtain ⟨entry, -, hsome⟩ := List.mem_filterMap.mp he
  cases entry <;> simp [fallbackEventOf] at hsome <;>
    rw [← hsome] <;> intro hc <;> cases hc

/-- C3 (amended): for every record whose `game_log` is present (the
source throws on any other record, see `C3_no_gamelog_cex`),
the timeline is non-empty, its last element is a `REVEAL` event, that
event is the only `REVEAL` in the sequence, it carries the role mapping
captured from the role-assignment entry (empty if none), and its
narration contains the winning faction name (uppercased, `"undefined"`
when `winner` is absent). -/
theorem C3_reveal_terminal (gl : List GameLogEntry)
    (al : Option (List ActionLogEntry)) (w : Option String) :
    ∃ evts : List Event,
      parseEvents { game_log := some gl, action_log := al, winner := w } =
        some evts ∧
      evts ≠ [] ∧
      (∃ last : Event, evts.getLast? = some last ∧
        last.type = EventType.REVEAL ∧
        last.roles = some ((findRoleAssignment gl).getD []) ∧
        includesStr last.text (jsUpperOpt w) = true) ∧
      (evts.filter fun e => e.type = EventType.REVEAL).length = 1 := by
  set g : Game := { game_log := some gl, action_log := al, winner := w }
    with hg
  refine ⟨timelineEvents g gl, rfl, ?_, ?_, ?_⟩
  · unfold timelineEvents
    intro hc
    rcases List.append_eq_nil.mp hc with ⟨-, h2⟩
    cases h2
  · refine ⟨revealEvent ((findRoleAssignment gl).getD []) g.winner, ?_, rfl,
      rfl, ?_⟩
    · unfold timelineEvents
      exact List.getLast?_concat _
    · unfold revealEvent
      exact includesStr_append _ _ _
  · unfold timelineEvents
    rw [List.filter_append]
    have hpre : (if (baseEvents g gl).length ≤ 1
        then baseEvents g gl ++ fallbackEvents gl
        else baseEvents g gl).filter
        (fun e => decide (e.type = EventType.REVEAL)) = [] := by
      rw [List.filter_eq_nil_iff]
      intro e he
      have hne : e.type ≠ EventType.REVEAL := by
        split at he
        · rcases List.mem_append.mp he with h | h
          · exact type_ne_reveal_of_mem_baseEvents _ _ _ h
          · exact type_ne_reveal_of_mem_fallbackEvents _ _ h
        · exact type_ne_reveal_of_mem_baseEvents _ _ _ he
      simpa using hne
    rw [hpre]
    simp [revealEvent]

/-- Record used by the C3 counterexample: `game_log` absent, a one-entry
`action_log`, and a winner present. -/
def gameC3 : Game :=
  { game_log := none
    action_log := some [{ player := "P1", action := "vote",
                          decision := some "P2", round := 1,
                          phase := some "day" }]
    winner := some "werewolves" }

/-- C3 (counterexample): the claim quantifies over every input record,
but on a record whose `game_log` is absent the source throws at
`game.game_log.find` before building anything — the builder returns no
event sequence at all, non-empty-with-terminal-reveal included. -/
theorem C3_no_gamelog_cex : parseEvents gameC3 = none := rfl

theorem append_ne_empty_of_left (s t : String) (h : s.data ≠ []) :
    s ++ t ≠ "" := by
  intro hc
  have hd := congrArg String.data hc
  rw [String.data_append] at hd
  exact h (List.append_eq_nil.mp hd).1

/-- C7: with `game_log` present the builder is total and degrades
gracefully — no role-assignment entry gives an empty role mapping on the
reveal, a missing `winner` renders the literal text `undefined` in the
reveal narration, and an action entry with neither reasoning nor decision
still synthesizes non-empty narration.  But a record whose `game_log` is
itself absent makes the source throw (`game.game_log.find` on
`undefined`), modelled by `parseEvents` returning `none`: the builder is
not total on that schema gap, contradicting the claim. -/
theorem C7_schema_gap_totality :
    parseEvents { game_log := none, action_log := none, winner := none } =
      none ∧
    (∀ (gl : List GameLogEntry) (al : Option (List ActionLogEntry))
        (w : Option String),
      (parseEvents { game_log := some gl, action_log := al, winner := w }).isSome
        = true) ∧
    (∀ (gl : List GameLogEntry) (al : Option (List ActionLogEntry))
        (w : Option String), findRoleAssignment gl = none →
      ∃ evts : List Event,
        parseEvents { game_log := some gl, action_log := al, winner := w } =
          some evts ∧
        evts.getLast? = some (revealEvent [] w)) ∧
    (∀ rs : List (String × String), (revealEvent rs none).text =
      "RECONSTRUCCIÓN FINALIZADA. FACCION VICTORIOSA: undefined. CARGANDO IDENTIDADES REALES...") ∧
    (∀ (p a : String) (r : Nat) (ph : Option String),
      (actionEventOf { player := p, action := a, decision := none,
                       reasoning := none, round := r, phase := ph }).text =
        "REGISTRO: " ++ p ++ " ejecutó " ++ a ++ " sobre " ++ "N/A" ++ "." ∧
      (actionEventOf { player := p, action := a, decision := none,
                       reasoning := none, round := r, phase := ph }).text ≠ "") := by
  refine ⟨rfl, fun gl al w => rfl, ?_, fun rs => rfl, ?_⟩
  · intro gl al w hr
    set g : Game := { game_log := some gl, action_log := al, winner := w }
      with hg
    refine ⟨timelineEvents g gl, rfl, ?_⟩
    unfold timelineEvents
    rw [hr]
    exact List.getLast?_concat _
  · intro p a r ph
    refine ⟨rfl, ?_⟩
    show "REGISTRO: " ++ p ++ " ejecutó " ++ a ++ " sobre " ++ "N/A" ++ "." ≠ ""
    have h1 : "REGISTRO: " ++ p ++ " ejecutó " ++ a ++ " sobre " ++ "N/A" ++ "." =
        "REGISTRO: " ++ (p ++ " ejecutó " ++ a ++ " sobre " ++ "N/A" ++ ".") := by
      simp [String.append_assoc]
    rw [h1]
    exact append_ne_empty_of_left _ _ (by decide)

theorem stepForwardN_spec (evts : List Event) (ps : List String) (k : Nat)
    (hk : k < evts.length) :
    stepForwardN (initReplay evts ps) k =
      { events := evts, currentIndex := k, autoPlay := false,
        suspicionScores :=
          List.foldl updateSuspicion (seedScores ps) (evts.take (k + 1)) } := by
  induction k with
  | zero =>
    cases evts with
    | nil => cases hk
    | cons e rest =>
      show initReplay (e :: rest) ps = _
      unfold initReplay updateReplayView
      simp [List.get?]
  | succ n ih =>
    have hn : n < evts.length := Nat.lt_of_succ_lt hk
    show stepReplay (stepForwardN (initReplay evts ps) n) 1 = _
    rw [ih hn]
    unfold stepReplay
    have hlen : ¬ evts.length = 0 := by omega
    rw [if_neg hlen]
    have hidx : (max 0 (min ((evts.length : Int) - 1) ((n : Nat) + 1))).toNat =
        n + 1 := by omega
    have he : evts.get? (n + 1) = some (evts.get ⟨n + 1, hk⟩) :=
      List.get?_eq_get hk
    unfold updateReplayView
    simp only [hidx, he]
    have he2 : evts[n + 1]? = some (evts.get ⟨n + 1, hk⟩) := by
      simp [he]
    conv_rhs => rw [List.take_succ, he2]
    rw [List.foldl_append]
    rfl

/-- C1 (amended): `step` does not recompute the suspicion map — each call
applies the heuristic once, to the event at the new cursor index.  What
does hold is the forward-only form: stepping forward `k` times from a
freshly initialized state lands on index `k` with the suspicion map equal
to the heuristic folded over events 0 through `k` inclusive from the
seeded map. -/
theorem C1_forward_traversal (evts : List Event) (ps : List String) (k : Nat)
    (hk : k < evts.length) :
    (stepForwardN (initReplay evts ps) k).currentIndex = k ∧
    (stepForwardN (initReplay evts ps) k).suspicionScores =
      List.foldl updateSuspicion (seedScores ps) (evts.take (k + 1)) := by
  rw [stepForwardN_spec evts ps k hk]
  exact ⟨rfl, rfl⟩

/-- Timeline used by the C1 theorems: a non-scoring event, then an
`ACTION` by `P1`, then another non-scoring event. -/
def evtsC1 : List Event :=
  [{ type := EventType.SYSTEM, text := "ARCHIVO RECUPERADO.", meta := "A" },
   { type := EventType.ACTION, actor := some "P1", text := "x", meta := "B" },
   { type := EventType.SYSTEM, text := "CIERRE", meta := "C" }]

theorem C1_forward_traversal_witness :
    (stepForwardN (initReplay evtsC1 ["P1"]) 2).suspicionScores =
      List.foldl updateSuspicion (seedScores ["P1"]) (evtsC1.take 3) :=
  (C1_forward_traversal evtsC1 ["P1"] 2 (by decide)).2

/-- C1 (counterexample): navigating forward to index 2, back to index 1,
and forward to index 2 again does not reproduce the map obtained by
navigating straight to index 2 — the revisited `ACTION` event at index 1
is applied again, leaving `P1` at 30 instead of 15. -/
theorem C1_zigzag_cex :
    (stepReplay (stepReplay (stepForwardN (initReplay evtsC1 ["P1"]) 2) (-1))
        1).suspicionScores ≠
      (stepForwardN (initReplay evtsC1 ["P1"]) 2).suspicionScores := by
  decide

/-- Record used by the C2 counterexample: a one-entry `action_log`, no
role-assignment entry, and a `game_log` containing a vote-exile marker. -/
def gameC2 : Game :=
  { game_log := some [GameLogEntry.voteExile 1 "P3"]
    action_log := some [{ player := "P1", action := "vote",
                          decision := some "P2", round := 1,
                          phase := some "day" }]
    winner := some "werewolves" }

/-- C2 (counterexample): `gameC2` has exactly one `actionLog` entry and no
role-assignment entry, yet its timeline has 3 events — the schema-A
vote-exile marker still contributes an eliminating `ACTION` event, because
the fallback condition is `events.length <= 1 && game.game_log`, not
"`actionLog` absent or empty". -/
theorem C2_fallback_cex :
    ((parseEvents gameC2).getD []).length = 3 ∧
    ((parseEvents gameC2).getD []).any (fun e => e.isElimination) = true := by
  decide

/-- C2 (amended): the schema-A fallback runs exactly when `game_log` is
present and the events built before the check (intro plus schema-B)
number at most one.  In particular a record with a one-entry `actionLog`
and no role-assignment entry also runs the fallback, and it yields the
claimed two-event timeline only when the `game_log` contributes no
night-phase or vote-exile markers. -/
theorem C2_fallback_condition :
    (∀ (game : Game) (gl : List GameLogEntry), game.game_log = some gl →
      ((baseEvents game gl).length ≤ 1 →
        parseEvents game = some (baseEvents game gl ++ fallbackEvents gl ++
          [revealEvent ((findRoleAssignment gl).getD []) game.winner])) ∧
      (1 < (baseEvents game gl).length →
        parseEvents game = some (baseEvents game gl ++
          [revealEvent ((findRoleAssignment gl).getD []) game.winner]))) ∧
    (∀ (gl : List GameLogEntry) (a : ActionLogEntry) (w : Option String),
      findRoleAssignment gl = none →
      parseEvents { game_log := some gl, action_log := some [a], winner := w } =
        some (actionEventOf a :: (fallbackEvents gl ++ [revealEvent [] w]))) ∧
    (∀ (gl : List GameLogEntry) (a : ActionLogEntry) (w : Option String),
      findRoleAssignment gl = none → fallbackEvents gl = [] →
      parseEvents { game_log := some gl, action_log := some [a], winner := w } =
        some [actionEventOf a, revealEvent [] w]) := by
  have hmain : ∀ (game : Game) (gl : List GameLogEntry),
      game.game_log = some gl →
      ((baseEvents game gl).length ≤ 1 →
        parseEvents game = some (baseEvents game gl ++ fallbackEvents gl ++
          [revealEvent ((findRoleAssignment gl).getD []) game.winner])) ∧
      (1 < (baseEvents game gl).length →
        parseEvents game = some (baseEvents game gl ++
          [revealEvent ((findRoleAssignment gl).getD []) game.winner])) := by
    intro game gl hgl
    constructor
    · intro hbase
      simp [parseEvents, hgl, timelineEvents, hbase, List.append_assoc]
    · intro hbase
      have : ¬ (baseEvents game gl).length ≤ 1 := Nat.not_le.mpr hbase
      simp [parseEvents, hgl, timelineEvents, this]
  refine ⟨hmain, ?_, ?_⟩
  · intro gl a w hr
    set g : Game := { game_log := some gl, action_log := some [a], winner := w }
      with hg
    have hbase : baseEvents g gl = [actionEventOf a] := by
      simp [baseEvents, hr, hg]
    have h := (hmain g gl rfl).1 (by rw [hbase]; exact Nat.le_refl 1)
    rw [h, hbase, hr]
    rfl
  · intro gl a w hr hfb
    set g : Game := { game_log := some gl, action_log := some [a], winner := w }
      with hg
    have hbase : baseEvents g gl = [actionEventOf a] := by
      simp [baseEvents, hr, hg]
    have h := (hmain g gl rfl).1 (by rw [hbase]; exact Nat.le_refl 1)
    rw [h, hbase, hr, hfb]
    rfl

end Werewolf
